import Mathlib

/-!
Verification of the mediator-webui backend: a shallow embedding of
src/backend/networkMonitor.js, the TCP-facing parts of src/backend/server.js
(message framing, node registration, socket close handling, playback), and
the database query used for playback.

JavaScript values appearing in message payloads and node records are modelled
by the inductive type Value below; JS objects are association lists observed
through first-match lookup, which models property access and object spread
faithfully (spread of b over a is the list b ++ a).  Timestamps are modelled
as natural numbers of milliseconds; ISO-8601 strings produced by the code
compare identically to their numeric values.  Numeric payload fields are
modelled as integers; fractional statistics are computed in the rationals.
-/

namespace Mediator

/-- A JavaScript value as it occurs in the monitor's payloads: null, a
boolean, an integer, a string, or an array of node ids. -/
inductive Value where
  | vNull : Value
  | vBool (b : Bool) : Value
  | vInt (n : Int) : Value
  | vStr (s : String) : Value
  | vArr (l : List String) : Value
deriving DecidableEq, Repr

open Value

/-- JavaScript truthiness of a value: null, false, 0 and the empty string are
falsy; arrays are always truthy. -/
def jsTruthy : Value → Bool
  | vNull => false
  | vBool b => b
  | vInt n => n != 0
  | vStr s => s != ""
  | vArr _ => true

/-- A JavaScript object, observed through first-match lookup; absent keys
model the value undefined. -/
abbrev JsObj := List (String × Value)

/-- Property access on a JS object (first matching key wins, so prepending a
pair models property assignment and list append models object spread). -/
def jget : JsObj → String → Option Value
  | [], _ => none
  | (k', v) :: rest, k => if k' = k then some v else jget rest k

/-- Truthiness of a possibly-undefined property. -/
def jsTruthyO : Option Value → Bool
  | some v => jsTruthy v
  | none => false

/-- The JS expression a-or-else-d (written with two vertical bars): the
property value if truthy, the default otherwise. -/
def jsOrVal (a : Option Value) (d : Value) : Value :=
  match a with
  | some v => if jsTruthy v then v else d
  | none => d

/-- JS strict equality as used on the stored previous holder and a payload's
currentHolder value: null, booleans, numbers and strings compare by value;
arrays compare by reference, and an array stored from one parsed report is
never the same object as an array inside a later parsed report, so array
comparisons between a stored holder and a fresh payload are always
unequal. -/
def jsStrictEq : Value → Value → Bool
  | vArr _, _ => false
  | _, vArr _ => false
  | a, b => a == b

/-- The movement guard previousHolder-truthy and previousHolder strictly
unequal (the !== operator) to the payload's currentHolder property; an
absent property reads as undefined, which is strictly unequal to every
defined value. -/
def movedCond (prev : Value) (nv : Option Value) : Bool :=
  jsTruthy prev &&
    (match nv with
     | some v => ! jsStrictEq prev v
     | none => true)

/-- A neighbors value on which the topology rebuild completes: absent, falsy
or an array.  A truthy non-array makes neighbors.forEach throw a TypeError
in the source. -/
def neighborsOk (a : Option Value) : Bool :=
  match a with
  | some (vArr _) => true
  | some v => ! jsTruthy v
  | none => true

/-- Numeric read with zero default, as in the source's reads of counter
fields: integer values pass through, everything else reads as 0. -/
def valNumOrZero (a : Option Value) : Int :=
  match a with
  | some (vInt n) => n
  | _ => 0

/-- A possibly-undefined value coerced to a rational for the derived
statistics; non-integer values read as 0. -/
def valToQ (a : Option Value) : ℚ :=
  match a with
  | some (vInt n) => (n : ℚ)
  | _ => 0

/-- Lookup in an insertion-ordered map keyed by strings (the model of a JS
Map as well as of a JS object). -/
def aget {α : Type} : List (String × α) → String → Option α
  | [], _ => none
  | (k', v) :: rest, k => if k' = k then some v else aget rest k

/-- Map.set: replace the value at an existing key in place, otherwise append,
preserving JS Map insertion order. -/
def mapSet {α : Type} : List (String × α) → String → α → List (String × α)
  | [], k, v => [(k, v)]
  | (k', v') :: rest, k, v =>
      if k' = k then (k, v) :: rest else (k', v') :: mapSet rest k v

/-- Map.has. -/
def mapHas {α : Type} (l : List (String × α)) (k : String) : Bool :=
  (aget l k).isSome

/-- Map.delete. -/
def mapDel {α : Type} (l : List (String × α)) (k : String) : List (String × α) :=
  l.filter (fun p => p.1 ≠ k)

/-! ## The NetworkMonitor data model (src/backend/networkMonitor.js) -/

abbrev NodeId := String

/-- An entry of this.topology.edges, as pushed by updateTopologyFromNode. -/
structure Edge where
  eid : String
  fromNode : NodeId
  toNode : NodeId
  edgeType : String
deriving DecidableEq, Repr

/-- An entry of this.tokenHistory.  The from field is the truthy previous
holder; the to, sequence, phase and depth fields are read off the raw
token_status payload, so they may be any value or undefined (none). -/
structure TokenMovement where
  fromVal : Value
  toVal : Option Value
  timestamp : Nat
  sequence : Option Value
  phase : Option Value
  depth : Option Value
deriving DecidableEq, Repr

/-- this.statistics. -/
structure Statistics where
  totalNodes : Nat
  activeNodes : Nat
  totalBandwidth : Int
  messagesRelayed : Int
  tokenCirculations : Nat
  averageTokenHoldTime : ℚ
  networkEfficiency : ℚ
  dfsCompletionRate : ℚ
deriving DecidableEq, Repr

/-- The whole NetworkMonitor state.  tokenStatus is itself a JS object
because updateTokenStatus merges raw payloads into it by object spread. -/
structure Monitor where
  nodes : List (NodeId × JsObj)
  topoNodes : List JsObj
  topoEdges : List Edge
  tokenStatus : JsObj
  statistics : Statistics
  dfsState : List (NodeId × JsObj)
  tokenHistory : List TokenMovement
  performanceMetrics : List (NodeId × JsObj)
deriving DecidableEq, Repr

/-- The constructor's tokenStatus literal. -/
def tsInit : JsObj :=
  [("currentHolder", vNull), ("sequence", vInt 0), ("phase", vStr "FORWARD"),
   ("traversalDepth", vInt 0), ("visitedCount", vInt 0), ("lastMovement", vNull)]

/-- The constructor's statistics literal. -/
def statsInit : Statistics :=
  { totalNodes := 0, activeNodes := 0, totalBandwidth := 0, messagesRelayed := 0
    tokenCirculations := 0, averageTokenHoldTime := 0, networkEfficiency := 0
    dfsCompletionRate := 0 }

/-- A freshly constructed NetworkMonitor. -/
def initMonitor : Monitor :=
  { nodes := [], topoNodes := [], topoEdges := [], tokenStatus := tsInit
    statistics := statsInit, dfsState := [], tokenHistory := []
    performanceMetrics := [] }

/-! ### calculateGlobalStatistics, split by statistic -/

/-- Array.from(this.nodes.values()). -/
def nodeVals (m : Monitor) : List JsObj := m.nodes.map (fun p => p.2)

/-- The active-node filter n.status equal to the string active. -/
def isActiveNode (o : JsObj) : Bool := jget o "status" = some (vStr "active")

def gsTotalNodes (m : Monitor) : Nat := (nodeVals m).length

def gsActiveNodes (m : Monitor) : Nat :=
  ((nodeVals m).filter isActiveNode).length

def gsTotalBandwidth (m : Monitor) : Int :=
  ((nodeVals m).map (fun o =>
    valNumOrZero (jget o "bytesSent") + valNumOrZero (jget o "bytesReceived"))).sum

def gsMessagesRelayed (m : Monitor) : Int :=
  ((nodeVals m).map (fun o => valNumOrZero (jget o "messagesRelayed"))).sum

/-- Timestamps of the token movements inside the trailing 60-second window
(the source compares ISO strings, which agrees with the numeric order). -/
def holdTimes (m : Monitor) (now : Nat) : List Nat :=
  (m.tokenHistory.filter
    (fun h => ((now : Int) - 60000 < (h.timestamp : Int) : Bool))).map
    (fun h => h.timestamp)

/-- Consecutive differences of the windowed timestamps (each entry minus its
predecessor). -/
def holdIntervals (m : Monitor) (now : Nat) : List Int :=
  List.zipWith (fun next prev => (next : Int) - (prev : Int))
    ((holdTimes m now).drop 1) (holdTimes m now)

/-- averageTokenHoldTime: recomputed only when at least two samples are in
the window, otherwise the stored value is kept. -/
def gsAvgHold (m : Monitor) (now : Nat) : ℚ :=
  if 1 < (holdTimes m now).length then
    ((holdIntervals m now).sum : ℚ) / ((holdIntervals m now).length : ℚ)
  else m.statistics.averageTokenHoldTime

/-- networkEfficiency, computed from the freshly summed messagesRelayed and
the stored tokenCirculations counter. -/
def gsEff (m : Monitor) : ℚ :=
  let total : Int := (m.statistics.tokenCirculations : Int) + gsMessagesRelayed m
  if 0 < total then (gsMessagesRelayed m : ℚ) / (total : ℚ) * 100 else 0

/-- dfsCompletionRate, from this.tokenStatus.visitedCount and the fresh
active-node count. -/
def gsDfsRate (m : Monitor) : ℚ :=
  if 0 < gsActiveNodes m then
    valToQ (jget m.tokenStatus "visitedCount") / (gsActiveNodes m : ℚ) * 100
  else 0

/-- calculateGlobalStatistics: overwrites this.statistics, leaving
tokenCirculations untouched. -/
def calculateGlobalStatistics (m : Monitor) (now : Nat) : Monitor :=
  { m with statistics :=
    { totalNodes := gsTotalNodes m, activeNodes := gsActiveNodes m
      totalBandwidth := gsTotalBandwidth m, messagesRelayed := gsMessagesRelayed m
      tokenCirculations := m.statistics.tokenCirculations
      averageTokenHoldTime := gsAvgHold m now, networkEfficiency := gsEff m
      dfsCompletionRate := gsDfsRate m } }

/-! ### The update operations -/

/-- updateTopologyFromNode: refresh this node's topology summary and, when
its neighbors field is truthy, remove this node's edges and re-add one per
neighbor currently present in the node map.  The returned Bool records
whether neighbors.forEach threw a TypeError (a truthy non-array neighbors
value): the summary replacement and the edge removal have already happened
at that point, and the exception propagates to the caller. -/
def updateTopologyFromNode (nodeId : NodeId) (nodeInfo : JsObj) (m : Monitor) :
    Monitor × Bool :=
  let base : JsObj :=
    [("id", vStr nodeId), ("label", vStr nodeId)]
    ++ (match jget nodeInfo "ip" with | some v => [("ip", v)] | none => [])
    ++ (match jget nodeInfo "port" with | some v => [("port", v)] | none => [])
    ++ [("status", jsOrVal (jget nodeInfo "status") (vStr "active")),
        ("hasToken", vBool (jget m.tokenStatus "currentHolder" = some (vStr nodeId))),
        ("neighbors", jsOrVal (jget nodeInfo "neighbors") (vArr []))]
  let nodeData : JsObj := nodeInfo ++ base
  let topoNodes' :=
    match m.topoNodes.findIdx? (fun n => jget n "id" = some (vStr nodeId)) with
    | some i => m.topoNodes.set i nodeData
    | none => m.topoNodes ++ [nodeData]
  match jget nodeInfo "neighbors" with
  | some (vArr neigh) =>
      ({ m with topoNodes := topoNodes'
                topoEdges :=
                  (m.topoEdges.filter
                    (fun e => e.fromNode ≠ nodeId ∧ e.toNode ≠ nodeId))
                  ++ (neigh.filter (fun nb => mapHas m.nodes nb)).map
                      (fun nb => Edge.mk (nodeId ++ "-" ++ nb) nodeId nb "neighbor") },
       false)
  | some v =>
      if jsTruthy v then
        ({ m with topoNodes := topoNodes'
                  topoEdges := m.topoEdges.filter
                    (fun e => e.fromNode ≠ nodeId ∧ e.toNode ≠ nodeId) },
         true)
      else ({ m with topoNodes := topoNodes' }, false)
  | none => ({ m with topoNodes := topoNodes' }, false)

/-- updateStatistics: on a payload with a truthy string nodeId naming a known
node, overwrite that node's counters and merge the payload into its
performance-metrics entry; in every case recompute the global statistics. -/
def updateStatistics (statsData : Option JsObj) (now : Nat) (m : Monitor) :
    Monitor :=
  let m1 :=
    match statsData with
    | some sd =>
        match jget sd "nodeId" with
        | some (vStr s) =>
            if s ≠ "" then
              match aget m.nodes s with
              | some node =>
                  let node' : JsObj :=
                    ("bytesSent", jsOrVal (jget sd "bytesSent") (vInt 0)) ::
                    ("bytesReceived", jsOrVal (jget sd "bytesReceived") (vInt 0)) ::
                    ("messagesRelayed", jsOrVal (jget sd "messagesRelayed") (vInt 0)) ::
                    node
                  let perf' : JsObj :=
                    ("timestamp", vInt now) ::
                    (sd ++ ((aget m.performanceMetrics s).getD []))
                  { m with nodes := mapSet m.nodes s node'
                           performanceMetrics := mapSet m.performanceMetrics s perf' }
              | none => m
            else m
        | _ => m
    | none => m
  calculateGlobalStatistics m1 now

/-- updateNode: spread the report over the existing record, stamp
lastUpdated, store it, rebuild this node's topology and recompute the
global statistics.  When the topology rebuild throws (truthy non-array
merged neighbors), the call aborts before the recomputation — the data
handler's catch swallows the exception — leaving the node stored and the
statistics stale. -/
def updateNode (nodeId : NodeId) (nodeInfo : JsObj) (now : Nat) (m : Monitor) :
    Monitor :=
  let updated : JsObj :=
    ("lastUpdated", vInt now) :: (nodeInfo ++ ((aget m.nodes nodeId).getD []))
  let m1 := { m with nodes := mapSet m.nodes nodeId updated }
  let r := updateTopologyFromNode nodeId updated m1
  if r.2 then r.1 else updateStatistics none now r.1

/-- updateTokenStatus: spread the payload over tokenStatus; when the previous
holder is truthy and strictly unequal (!==, so reference inequality on
arrays) to the payload's currentHolder value, append a movement record
(trimming the history to its last 1000 entries) and increment
tokenCirculations; finally bump the new holder's tokenHolds when the new
holder is a truthy value naming a known node.  The global statistics are not
recomputed here. -/
def updateTokenStatus (tokenData : JsObj) (now : Nat) (m : Monitor) : Monitor :=
  let prev : Value := (jget m.tokenStatus "currentHolder").getD vNull
  let ts' : JsObj := ("lastMovement", vInt now) :: (tokenData ++ m.tokenStatus)
  let moved : Bool := movedCond prev (jget tokenData "currentHolder")
  let hist1 :=
    if moved then
      m.tokenHistory ++
        [TokenMovement.mk prev (jget tokenData "currentHolder") now
          (jget tokenData "sequence") (jget tokenData "phase")
          (jget tokenData "traversalDepth")]
    else m.tokenHistory
  let hist2 := if 1000 < hist1.length then hist1.drop (hist1.length - 1000) else hist1
  let stats' :=
    if moved then
      { m.statistics with tokenCirculations := m.statistics.tokenCirculations + 1 }
    else m.statistics
  let nodes' :=
    match jget tokenData "currentHolder" with
    | some (vStr h) =>
        if h ≠ "" then
          match aget m.nodes h with
          | some node =>
              mapSet m.nodes h
                (("lastTokenHold", vInt now) ::
                 ("tokenHolds", vInt (valNumOrZero (jget node "tokenHolds") + 1)) ::
                 node)
          | none => m.nodes
        else m.nodes
    | _ => m.nodes
  { m with tokenStatus := ts', tokenHistory := hist2, statistics := stats'
           nodes := nodes' }

/-- updateTopology: on a payload with a truthy string nodeId naming a known
node, replace that node's neighbors (defaulting to the empty array) and
rebuild its edges.  No statistics recomputation, and nothing follows the
rebuild in this call, so a TypeError thrown inside it changes nothing
further. -/
def updateTopology (topologyData : JsObj) (m : Monitor) : Monitor :=
  match jget topologyData "nodeId" with
  | some (vStr s) =>
      if s ≠ "" then
        match aget m.nodes s with
        | some node =>
            let node' : JsObj :=
              ("neighbors", jsOrVal (jget topologyData "neighbors") (vArr [])) :: node
            let m1 := { m with nodes := mapSet m.nodes s node' }
            (updateTopologyFromNode s node' m1).1
        | none => m
      else m
  | _ => m

/-- updateDfsState: on a payload with a truthy string nodeId, store the
stamped payload in dfsState and fold phase, depth and the dfsState size into
the global tokenStatus.  No statistics recomputation. -/
def updateDfsState (dfsData : JsObj) (now : Nat) (m : Monitor) : Monitor :=
  match jget dfsData "nodeId" with
  | some (vStr s) =>
      if s ≠ "" then
        let dfs' := mapSet m.dfsState s (("timestamp", vInt now) :: dfsData)
        let ts' : JsObj :=
          ("visitedCount", vInt (dfs'.length : Int)) ::
          ("traversalDepth",
            jsOrVal (jget dfsData "depth")
              ((jget m.tokenStatus "traversalDepth").getD vNull)) ::
          ("phase",
            jsOrVal (jget dfsData "phase")
              ((jget m.tokenStatus "phase").getD vNull)) ::
          m.tokenStatus
        { m with dfsState := dfs', tokenStatus := ts' }
      else m
  | _ => m

/-- removeNode: drop the node from every per-node container and from the
topology (every edge touching it), then recompute the global statistics. -/
def removeNode (nodeId : NodeId) (now : Nat) (m : Monitor) : Monitor :=
  let m1 :=
    { m with nodes := mapDel m.nodes nodeId
             dfsState := mapDel m.dfsState nodeId
             performanceMetrics := mapDel m.performanceMetrics nodeId
             topoNodes := m.topoNodes.filter
               (fun n => jget n "id" ≠ some (vStr nodeId))
             topoEdges := m.topoEdges.filter
               (fun e => e.fromNode ≠ nodeId ∧ e.toNode ≠ nodeId) }
  updateStatistics none now m1

/-- reset: clear every container and restore the tokenStatus literal, then
recompute the global statistics (this.statistics itself is not reassigned). -/
def reset (now : Nat) (m : Monitor) : Monitor :=
  calculateGlobalStatistics
    { m with nodes := [], dfsState := [], performanceMetrics := []
             tokenHistory := [], topoNodes := [], topoEdges := []
             tokenStatus := tsInit }
    now

/-! ### Operation traces over the monitor -/

/-- One NetworkMonitor call, with the wall-clock time at which it runs. -/
inductive MOp where
  | opNodeInfo (nodeId : NodeId) (nodeInfo : JsObj) (now : Nat)
  | opTokenStatus (tokenData : JsObj) (now : Nat)
  | opTopology (topologyData : JsObj)
  | opStatistics (statsData : Option JsObj) (now : Nat)
  | opDfs (dfsData : JsObj) (now : Nat)
  | opRemove (nodeId : NodeId) (now : Nat)
  | opReset (now : Nat)
deriving DecidableEq, Repr

/-- Apply one monitor operation. -/
def step : MOp → Monitor → Monitor
  | MOp.opNodeInfo nodeId nodeInfo now, m => updateNode nodeId nodeInfo now m
  | MOp.opTokenStatus tokenData now, m => updateTokenStatus tokenData now m
  | MOp.opTopology topologyData, m => updateTopology topologyData m
  | MOp.opStatistics statsData now, m => updateStatistics statsData now m
  | MOp.opDfs dfsData now, m => updateDfsState dfsData now m
  | MOp.opRemove nodeId now, m => removeNode nodeId now m
  | MOp.opReset now, m => reset now m

/-- Run a trace of monitor operations on a fresh monitor. -/
def runTrace (ops : List MOp) : Monitor :=
  ops.foldl (fun m op => step op m) initMonitor

/-! ## Server-side handling (src/backend/server.js) -/

/-- The server state visible to the claims: the connectedNodes map, the
monitor, and the log of broadcastToClients emissions as channel-payload
pairs.  The live socket handle stored inside each node record is outside the
model. -/
structure Server where
  connectedNodes : List (NodeId × JsObj)
  monitor : Monitor
  broadcasts : List (String × JsObj)
deriving Repr

def initServer : Server :=
  { connectedNodes := [], monitor := initMonitor, broadcasts := [] }

/-- handleNodeInfo: stamp lastSeen and an active status onto the payload,
register the record under data.nodeId in connectedNodes, fold it into the
monitor and broadcast it. -/
def handleNodeInfo (data : JsObj) (ts : Nat) (s : Server) : Server :=
  let nodeInfo : JsObj := ("status", vStr "active") :: ("lastSeen", vInt ts) :: data
  let nid : NodeId := match jget data "nodeId" with | some (vStr n) => n | _ => ""
  { connectedNodes := mapSet s.connectedNodes nid nodeInfo
    monitor := updateNode nid nodeInfo ts s.monitor
    broadcasts := s.broadcasts ++ [("node_info", nodeInfo)] }

/-- The close handler of a node's TCP socket (server.js lines 143-149): when
the connection had registered a nodeId still present in connectedNodes,
delete it there and broadcast node_disconnected.  The NetworkMonitor is not
touched. -/
def onSocketClose (connNodeId : Option NodeId) (s : Server) : Server :=
  match connNodeId with
  | some nid =>
      if nid ≠ "" ∧ mapHas s.connectedNodes nid then
        { s with connectedNodes := mapDel s.connectedNodes nid
                 broadcasts := s.broadcasts ++
                   [("node_disconnected", [("nodeId", vStr nid)])] }
      else s
  | none => s

/-! ## The message framer (server.js socket data handler) -/

/-- String.prototype.split at the newline character: n newlines yield n+1
parts, the last being the text after the final newline. -/
def splitNl : List Char → List (List Char)
  | [] => [[]]
  | c :: rest =>
      let r := splitNl rest
      if c = '\n' then [] :: r else (c :: r.headI) :: r.tail

/-- One completed line: skipped when blank, otherwise handed to the parser;
a parse failure only drops the line. -/
def processLine {α : Type} (parse : List Char → Option α) (line : List Char) :
    Option α :=
  if line.all Char.isWhitespace then none else parse line

/-- One socket data event: append the chunk to the connection buffer, split
on newlines, keep the trailing incomplete part as the new buffer and process
every completed line. -/
def feedData {α : Type} (parse : List Char → Option α) (buf chunk : List Char) :
    List Char × List α :=
  let parts := splitNl (buf ++ chunk)
  ((parts.getLast?).getD [], parts.dropLast.filterMap (processLine parse))

/-- A sequence of socket data events on one connection, collecting every
message handed to the dispatcher. -/
def feedMany {α : Type} (parse : List Char → Option α) (buf : List Char)
    (chunks : List (List Char)) : List Char × List α :=
  chunks.foldl
    (fun st chunk =>
      let r := feedData parse st.1 chunk
      (r.1, st.2 ++ r.2))
    (buf, [])

/-! ## The durable store and playback (database.js, server.js startPlayback) -/

/-- A row of the network_events table: an autoincrement id (the per-session
ordinal), the session, the dispatcher timestamp, the event type and payload. -/
structure EventRow where
  rid : Nat
  sessionId : String
  timestamp : Nat
  eventType : String
  payload : JsObj
deriving DecidableEq, Repr

/-- The comparison used by the getRecordingEvents query, which orders by the
timestamp column ascending. -/
def rowLE (a b : EventRow) : Prop := a.timestamp ≤ b.timestamp

instance : DecidableRel rowLE := fun a b => Nat.decLe a.timestamp b.timestamp

instance : IsTotal EventRow rowLE := ⟨fun a b => Nat.le_total a.timestamp b.timestamp⟩

instance : IsTrans EventRow rowLE := ⟨fun _ _ _ h h' => Nat.le_trans h h'⟩

/-- getRecordingEvents: the session's rows ordered by timestamp ascending
(rows with equal timestamps are returned in a sort-dependent order; the
query does not constrain it). -/
def getRecordingEvents (sessionId : String) (rows : List EventRow) :
    List EventRow :=
  List.insertionSort rowLE (rows.filter (fun e => e.sessionId = sessionId))

/-- What startPlayback emits to the requesting observer. -/
inductive PlaybackEmit where
  | pevent (e : EventRow)
  | pcomplete
deriving DecidableEq, Repr

/-- startPlayback: load the session's events and emit them one per tick in
loaded order, then a single completion signal. -/
def startPlayback (sessionId : String) (rows : List EventRow) :
    List PlaybackEmit :=
  (getRecordingEvents sessionId rows).map PlaybackEmit.pevent
    ++ [PlaybackEmit.pcomplete]

/-! ## Specification-side counting functions and observation helpers -/

/-- The currentHolder value that results from merging one token_status
payload over the previous one (present field wins, absent field keeps). -/
def nextHolder (prev : Value) (d : JsObj) : Value :=
  match jget d "currentHolder" with
  | some v => v
  | none => prev

/-- The claim's circulation count: the number of updates whose currentHolder
moves to a different non-null value from a different non-null previous
holder. -/
def specCirculationCount : Value → List JsObj → Nat
  | _, [] => 0
  | prev, d :: rest =>
      let nh := nextHolder prev d
      (if prev ≠ vNull ∧ nh ≠ vNull ∧ nh ≠ prev then 1 else 0)
      + specCirculationCount nh rest

/-- The movement condition of updateTokenStatus folded over a payload
sequence: counts updates where the previous holder is truthy and the
payload's currentHolder property is strictly unequal (!==) to it. -/
def circCount : Value → List JsObj → Nat
  | _, [] => 0
  | prev, d :: rest =>
      (if movedCond prev (jget d "currentHolder") then 1 else 0)
      + circCount (nextHolder prev d) rest

/-- Fold a sequence of timestamped token_status payloads into a monitor. -/
def runTokenUpdates (updates : List (JsObj × Nat)) (m : Monitor) : Monitor :=
  updates.foldl (fun m u => updateTokenStatus u.1 u.2 m) m

/-- The stored currentHolder of a monitor (undefined read as null, matching
the truthiness tests in the source). -/
def curHolder (m : Monitor) : Value := (jget m.tokenStatus "currentHolder").getD vNull

/-- The statistics invariant claimed for the aggregator: recomputing the
global statistics at the given instant changes nothing. -/
def statsConsistent (m : Monitor) (now : Nat) : Prop :=
  calculateGlobalStatistics m now = m

/-- A field of a stored node record, or none when the node or field is
absent. -/
def getNodeField (m : Monitor) (nid : NodeId) (k : String) : Option Value :=
  match aget m.nodes nid with
  | some o => jget o k
  | none => none

/-- The last value supplied for a field across a report sequence, counting
only reports in which the field is present at all. -/
def lastPresent (k : String) : List JsObj → Option Value
  | [] => none
  | d :: rest => (lastPresent k rest).orElse (fun _ => jget d k)

/-- The timestamp of the last report of a nonempty sequence. -/
def lastTs : List (JsObj × Nat) → Nat
  | [] => 0
  | [r] => r.2
  | _ :: rest => lastTs rest

/-- The claim's merge semantics: the last non-null value supplied for a
field across a report sequence. -/
def lastNonNull (k : String) (reports : List JsObj) : Option Value :=
  (reports.filterMap (fun d =>
    match jget d k with
    | some vNull => none
    | x => x)).getLast?

/-- Fold a sequence of timestamped node_info reports through the server's
handleNodeInfo. -/
def runNodeInfoReports (reports : List (JsObj × Nat)) : Server :=
  reports.foldl (fun s r => handleNodeInfo r.1 r.2 s) initServer

/-- The claimed topology well-formedness: every edge's endpoints are keys of
the current node map. -/
def edgesWf (m : Monitor) : Prop :=
  ∀ e ∈ m.topoEdges,
    mapHas m.nodes e.fromNode = true ∧ mapHas m.nodes e.toNode = true

/-- A well-formed counter field of a payload: absent, null, or a
non-negative integer. -/
def counterFieldOk (a : Option Value) : Bool :=
  match a with
  | none => true
  | some vNull => true
  | some (vInt n) => 0 ≤ n
  | some _ => false

/-- All three node counter fields of a payload are well-formed. -/
def payloadCountersOk (o : JsObj) : Bool :=
  counterFieldOk (jget o "bytesSent") && counterFieldOk (jget o "bytesReceived")
    && counterFieldOk (jget o "messagesRelayed")

/-- The benign-input condition of the amended efficiency claim: node_info
and statistics_update payloads carry well-formed counters. -/
def goodOp : MOp → Prop
  | MOp.opNodeInfo _ nodeInfo _ => payloadCountersOk nodeInfo = true
  | MOp.opStatistics (some sd) _ => payloadCountersOk sd = true
  | _ => True

/-- Every stored node record has well-formed counters. -/
def nodesOk (m : Monitor) : Prop :=
  ∀ p ∈ m.nodes, payloadCountersOk p.2 = true

/-- The inductive invariant behind the amended efficiency claim. -/
def effInv (m : Monitor) : Prop :=
  0 ≤ m.statistics.messagesRelayed
    ∧ 0 ≤ m.statistics.networkEfficiency
    ∧ m.statistics.networkEfficiency ≤ 100
    ∧ (m.statistics.messagesRelayed + (m.statistics.tokenCirculations : Int) = 0
        → m.statistics.networkEfficiency = 0)
    ∧ nodesOk m

/-! ## Concrete scenarios used by counterexamples and witnesses -/

/-- C4's scenario: node_A reports neighbors node_B, then node_B reports
neighbors node_A. -/
def mutualReportRun : Monitor :=
  runTrace
    [MOp.opNodeInfo "node_A"
      [("nodeId", vStr "node_A"), ("neighbors", vArr ["node_B"])] 1,
     MOp.opNodeInfo "node_B"
      [("nodeId", vStr "node_B"), ("neighbors", vArr ["node_A"])] 2]

/-- C1's scenario: the token arrives at A, then a token_status carrying a
null currentHolder. -/
def tokenNullRun : Monitor :=
  runTokenUpdates
    [([("currentHolder", vStr "A")], 1), ([("currentHolder", vNull)], 2)]
    initMonitor

/-- C2's scenario: an active node registers, then a dfs_state report is
applied (which does not recompute the statistics). -/
def dfsStaleRun : Monitor :=
  runTrace
    [MOp.opNodeInfo "A" [("nodeId", vStr "A"), ("status", vStr "active")] 1,
     MOp.opDfs [("nodeId", vStr "A")] 2]

/-- C6's scenario: a peer reports a negative messagesRelayed counter, the
token circulates twice, and a later node_info triggers a recomputation. -/
def negativeEffRun : Monitor :=
  runTrace
    [MOp.opNodeInfo "A" [("nodeId", vStr "A")] 1,
     MOp.opStatistics (some [("nodeId", vStr "A"), ("messagesRelayed", vInt (-1))]) 2,
     MOp.opTokenStatus [("currentHolder", vStr "A")] 3,
     MOp.opTokenStatus [("currentHolder", vStr "B")] 4,
     MOp.opTokenStatus [("currentHolder", vStr "A")] 5,
     MOp.opNodeInfo "B" [("nodeId", vStr "B")] 6]

/-- The intermediate state of dfsStaleRun's first updateNode call, just
before its statistics recomputation. -/
def staleMid : Monitor :=
  let updated : JsObj :=
    ("lastUpdated", vInt 1) ::
      ([("nodeId", vStr "A"), ("status", vStr "active")]
        ++ ((aget initMonitor.nodes "A").getD []))
  (updateTopologyFromNode "A" updated
    { initMonitor with nodes := mapSet initMonitor.nodes "A" updated }).1

/-- The first five operations of negativeEffRun. -/
def negEffBase : Monitor :=
  runTrace
    [MOp.opNodeInfo "A" [("nodeId", vStr "A")] 1,
     MOp.opStatistics (some [("nodeId", vStr "A"), ("messagesRelayed", vInt (-1))]) 2,
     MOp.opTokenStatus [("currentHolder", vStr "A")] 3,
     MOp.opTokenStatus [("currentHolder", vStr "B")] 4,
     MOp.opTokenStatus [("currentHolder", vStr "A")] 5]

/-- The intermediate state of negativeEffRun's final updateNode call, just
before its statistics recomputation. -/
def negEffMid : Monitor :=
  let updated : JsObj :=
    ("lastUpdated", vInt 6) ::
      ([("nodeId", vStr "B")] ++ ((aget negEffBase.nodes "B").getD []))
  (updateTopologyFromNode "B" updated
    { negEffBase with nodes := mapSet negEffBase.nodes "B" updated }).1

/-- The error path of the topology rebuild: node_B's report carries a truthy
non-array neighbors value, so its updateNode throws in neighbors.forEach
after storing the record and aborts before the statistics recomputation. -/
def throwRun : Monitor :=
  runTrace
    [MOp.opNodeInfo "A"
      [("nodeId", vStr "A"), ("status", vStr "active"), ("neighbors", vArr ["B"])] 1,
     MOp.opNodeInfo "B"
      [("nodeId", vStr "B"), ("status", vStr "active"), ("neighbors", vStr "x")] 2]

/-- C3's scenario: node_A registers over TCP, then its connection closes. -/
def closeRun : Server :=
  onSocketClose (some "node_A")
    (handleNodeInfo [("nodeId", vStr "node_A")] 1000 initServer)

/-- C8's scenario: a report sets ip, a second report carries an explicit
null ip. -/
def nullOverwriteRun : Server :=
  runNodeInfoReports
    [([("nodeId", vStr "node_A"), ("ip", vStr "1.2.3.4")], 1),
     ([("nodeId", vStr "node_A"), ("ip", vNull)], 2)]

/-- C5's scenario: two events of one session whose recorded ordinals and
wall-clock timestamps disagree in order. -/
def skewRows : List EventRow :=
  [⟨1, "s", 200, "node_info", []⟩, ⟨2, "s", 100, "token_status", []⟩]

/-! ## Lemmas about the map and object primitives -/

theorem jget_append (a b : JsObj) (k : String) :
    jget (a ++ b) k = (jget a k).orElse (fun _ => jget b k) := by
  induction a with
  | nil => simp [jget]
  | cons p rest ih =>
      obtain ⟨k', v⟩ := p
      by_cases h : k' = k <;> simp [jget, h, ih]

theorem aget_mapSet {α : Type} (l : List (String × α)) (k k' : String) (v : α) :
    aget (mapSet l k v) k' = if k' = k then some v else aget l k' := by
  induction l with
  | nil =>
      by_cases h : k' = k
      · simp [mapSet, aget, h]
      · simp [mapSet, aget, h, Ne.symm h]
  | cons p rest ih =>
      obtain ⟨k₀, v₀⟩ := p
      by_cases h0 : k₀ = k
      · subst h0
        by_cases h1 : k' = k₀
        · simp [mapSet, aget, h1]
        · simp [mapSet, aget, h1, Ne.symm h1]
      · by_cases h1 : k₀ = k'
        · subst h1
          simp [mapSet, aget, h0, Ne.symm h0]
        · simp [mapSet, aget, h0, h1, ih]

theorem mapHas_mapSet {α : Type} (l : List (String × α)) (k k' : String) (v : α) :
    mapHas (mapSet l k v) k' = (k' = k ∨ mapHas l k' = true) := by
  by_cases h : k' = k <;> simp [mapHas, aget_mapSet, h]

theorem mapHas_of_mapHas_set {α : Type} {l : List (String × α)} {k' : String}
    (k : String) (v : α) (h : mapHas l k' = true) :
    mapHas (mapSet l k v) k' = true := by
  rw [mapHas_mapSet]
  exact Or.inr h

theorem aget_mapDel {α : Type} (l : List (String × α)) (k k' : String) :
    aget (mapDel l k) k' = if k' = k then none else aget l k' := by
  induction l with
  | nil => simp [mapDel, aget]
  | cons p rest ih =>
      obtain ⟨k₀, v₀⟩ := p
      by_cases h0 : k₀ = k
      · subst h0
        have hdel : mapDel ((k₀, v₀) :: rest) k₀ = mapDel rest k₀ := by
          simp [mapDel]
        rw [hdel, ih]
        by_cases h1 : k' = k₀
        · simp [h1]
        · simp [aget, h1, Ne.symm h1]
      · have hdel : mapDel ((k₀, v₀) :: rest) k = (k₀, v₀) :: mapDel rest k := by
          simp [mapDel, h0]
        rw [hdel]
        by_cases h1 : k₀ = k'
        · subst h1
          simp [aget, Ne.symm h0, h0]
        · simp [aget, h1, ih]

theorem mapHas_mapDel {α : Type} (l : List (String × α)) (k k' : String) :
    mapHas (mapDel l k) k' = (k' ≠ k ∧ mapHas l k' = true) := by
  by_cases h : k' = k <;> simp [mapHas, aget_mapDel, h]

/-! ## Basic facts about the topology rebuild -/

theorem topoFrom_nodes (nid : NodeId) (info : JsObj) (m : Monitor) :
    ((updateTopologyFromNode nid info m).1).nodes = m.nodes := by
  unfold updateTopologyFromNode
  repeat' split
  all_goals rfl

theorem topoFrom_stats (nid : NodeId) (info : JsObj) (m : Monitor) :
    ((updateTopologyFromNode nid info m).1).statistics = m.statistics := by
  unfold updateTopologyFromNode
  repeat' split
  all_goals rfl

theorem topoFrom_noThrow (nid : NodeId) (info : JsObj) (m : Monitor)
    (h : neighborsOk (jget info "neighbors") = true) :
    (updateTopologyFromNode nid info m).2 = false := by
  unfold updateTopologyFromNode
  cases hn : jget info "neighbors" with
  | none => simp [hn]
  | some v =>
      cases v with
      | vArr l => simp [hn]
      | vNull => simp [hn, jsTruthy]
      | vBool b =>
          have ht : jsTruthy (vBool b) = false := by
            simpa [neighborsOk, hn] using h
          simp [hn, ht]
      | vInt n =>
          have ht : jsTruthy (vInt n) = false := by
            simpa [neighborsOk, hn] using h
          simp [hn, ht]
      | vStr s =>
          have ht : jsTruthy (vStr s) = false := by
            simpa [neighborsOk, hn] using h
          simp [hn, ht]

theorem updStats_nodes_none (now : Nat) (m : Monitor) :
    (updateStatistics none now m).nodes = m.nodes := rfl

/-! ## Claim C4 -/

/-- C4 counterexample: after node_A reports neighbors node_B and then
node_B reports neighbors node_A, the topology holds the single directed
edge node_B to node_A; the claimed edge node_A to node_B is absent, because
node_B was unknown when node_A reported. -/
theorem C4_counterexample :
    mutualReportRun.topoEdges.map (fun e => (e.fromNode, e.toNode))
      = [("node_B", "node_A")] := by
  decide

/-- C4 amended: the scenario yields exactly the directed edge from node_B to
node_A, and totalNodes equals 2. -/
theorem C4_amended_topology :
    mutualReportRun.topoEdges
        = [Edge.mk "node_B-node_A" "node_B" "node_A" "neighbor"]
      ∧ mutualReportRun.statistics.totalNodes = 2 := by
  decide

/-! ## Claim C3 -/

/-- C3: closing the TCP connection of registered node_A broadcasts
node_disconnected exactly once and removes it from connectedNodes, but the
aggregator still holds node_A (in its node map and topology) and its
activeNodes count stays 1, because the close handler never invokes
NetworkMonitor.removeNode. -/
theorem C3_close_leaves_aggregator :
    (closeRun.broadcasts.filter (fun b => b.1 = "node_disconnected")).length = 1
      ∧ mapHas closeRun.connectedNodes "node_A" = false
      ∧ mapHas closeRun.monitor.nodes "node_A" = true
      ∧ closeRun.monitor.topoNodes.length = 1
      ∧ closeRun.monitor.statistics.activeNodes = 1 := by
  decide

/-! ## Claim C10 -/

/-- C10: reset empties the node map, dfsState, performanceMetrics,
tokenHistory and topology and restores the initial tokenStatus, while
statistics.tokenCirculations and statistics.averageTokenHoldTime keep their
pre-reset values. -/
theorem C10_reset_frame (m : Monitor) (now : Nat) :
    (reset now m).nodes = [] ∧ (reset now m).dfsState = []
      ∧ (reset now m).performanceMetrics = []
      ∧ (reset now m).tokenHistory = []
      ∧ (reset now m).topoNodes = [] ∧ (reset now m).topoEdges = []
      ∧ (reset now m).tokenStatus = tsInit
      ∧ (reset now m).statistics.tokenCirculations
          = m.statistics.tokenCirculations
      ∧ (reset now m).statistics.averageTokenHoldTime
          = m.statistics.averageTokenHoldTime := by
  refine ⟨rfl, rfl, rfl, rfl, rfl, rfl, rfl, rfl, ?_⟩
  simp [reset, calculateGlobalStatistics, gsAvgHold, holdTimes]

/-! ## Claim C5 -/

/-- C5 counterexample: for a session whose two events have ordinals 1, 2 but
wall-clock timestamps 200, 100, playback emits the events in timestamp
order (ordinal 2 first), not in the recorded ordinal order the claim
states. -/
theorem C5_counterexample :
    startPlayback "s" skewRows
        = [PlaybackEmit.pevent ⟨2, "s", 100, "token_status", []⟩,
           PlaybackEmit.pevent ⟨1, "s", 200, "node_info", []⟩,
           PlaybackEmit.pcomplete]
      ∧ startPlayback "s" skewRows
        ≠ [PlaybackEmit.pevent ⟨1, "s", 200, "node_info", []⟩,
           PlaybackEmit.pevent ⟨2, "s", 100, "token_status", []⟩,
           PlaybackEmit.pcomplete] := by
  decide

/-! ## Claim C1 -/

/-- C1 counterexample: after the token arrives at A, an update whose
currentHolder is null appends a movement record and increments
tokenCirculations to 1, while the claim's count of moves to a different
non-null holder over this sequence is 0. -/
theorem C1_counterexample :
    tokenNullRun.statistics.tokenCirculations = 1
      ∧ tokenNullRun.tokenHistory.length = 1
      ∧ specCirculationCount vNull
          [[("currentHolder", vStr "A")], [("currentHolder", vNull)]] = 0 := by
  decide

theorem tokenStatus_update (d : JsObj) (now : Nat) (m : Monitor) :
    (updateTokenStatus d now m).tokenStatus
      = ("lastMovement", vInt now) :: (d ++ m.tokenStatus) := rfl

theorem curHolder_update (d : JsObj) (now : Nat) (m : Monitor) :
    curHolder (updateTokenStatus d now m) = nextHolder (curHolder m) d := by
  unfold curHolder nextHolder
  rw [tokenStatus_update]
  simp only [jget, jget_append]
  rw [if_neg (by decide : ¬ ("lastMovement" = "currentHolder"))]
  cases h : jget d "currentHolder" <;> simp [h, Option.orElse]

theorem tc_update (d : JsObj) (now : Nat) (m : Monitor) :
    (updateTokenStatus d now m).statistics.tokenCirculations
      = m.statistics.tokenCirculations
        + (if movedCond (curHolder m) (jget d "currentHolder") then 1 else 0) := by
  unfold updateTokenStatus curHolder
  by_cases h : movedCond ((jget m.tokenStatus "currentHolder").getD vNull)
      (jget d "currentHolder") = true
  · simp [h]
  · simp [h]

theorem histLen_update (d : JsObj) (now : Nat) (m : Monitor) :
    (updateTokenStatus d now m).tokenHistory.length
      = min (m.tokenHistory.length
          + (if movedCond (curHolder m) (jget d "currentHolder") then 1 else 0))
          1000 := by
  unfold updateTokenStatus curHolder
  by_cases h : movedCond ((jget m.tokenStatus "currentHolder").getD vNull)
      (jget d "currentHolder") = true
  · by_cases hlen : 1000 < m.tokenHistory.length + 1
    · simp [h, hlen]
      omega
    · simp [h, hlen]
      omega
  · by_cases hlen : 1000 < m.tokenHistory.length
    · simp [h, hlen]
      omega
    · simp [h, hlen]
      omega

theorem runTok_general (updates : List (JsObj × Nat)) :
    ∀ m : Monitor, m.tokenHistory.length ≤ 1000 →
      (runTokenUpdates updates m).statistics.tokenCirculations
          = m.statistics.tokenCirculations
            + circCount (curHolder m) (updates.map Prod.fst)
        ∧ (runTokenUpdates updates m).tokenHistory.length
          = min (m.tokenHistory.length
              + circCount (curHolder m) (updates.map Prod.fst)) 1000 := by
  induction updates with
  | nil =>
      intro m hlen
      constructor
      · simp [runTokenUpdates, circCount]
      · simp [runTokenUpdates, circCount]
        omega
  | cons u rest ih =>
      intro m hlen
      obtain ⟨d, t⟩ := u
      have hstep : runTokenUpdates ((d, t) :: rest) m
          = runTokenUpdates rest (updateTokenStatus d t m) := rfl
      have hcc : circCount (curHolder m) (((d, t) :: rest).map Prod.fst)
          = (if movedCond (curHolder m) (jget d "currentHolder") then 1 else 0)
            + circCount (nextHolder (curHolder m) d) (rest.map Prod.fst) := rfl
      have hlen' : (updateTokenStatus d t m).tokenHistory.length ≤ 1000 := by
        rw [histLen_update]
        omega
      obtain ⟨ihc, ihl⟩ := ih (updateTokenStatus d t m) hlen'
      rw [curHolder_update] at ihc ihl
      constructor
      · rw [hstep, ihc, tc_update, hcc]
        omega
      · rw [hstep, ihl, histLen_update, hcc]
        omega

/-- C1 amended: over any sequence of token_status payloads applied to a
fresh monitor, tokenCirculations equals the number of updates whose
previous holder was truthy and whose currentHolder property is strictly
unequal (!==) to it — moves to null or to an absent property count, and an
array-valued holder always counts because parsed arrays compare by
reference — and the history length is that count capped at 1000 (each
qualifying update appends exactly one record, the oldest being evicted
past 1000). -/
theorem C1_amended_circulations (updates : List (JsObj × Nat)) :
    (runTokenUpdates updates initMonitor).statistics.tokenCirculations
        = circCount vNull (updates.map Prod.fst)
      ∧ (runTokenUpdates updates initMonitor).tokenHistory.length
        = min (circCount vNull (updates.map Prod.fst)) 1000 := by
  have h := runTok_general updates initMonitor (by simp [initMonitor])
  have hch : curHolder initMonitor = vNull := rfl
  rw [hch] at h
  simpa [initMonitor, statsInit] using h

/-- The reference semantics of the movement guard on array holders: two
successive payloads carrying the structurally equal array holder compare
unequal under the strict !== of the source, so the second one circulates. -/
theorem arrayHolder_circulates :
    (runTokenUpdates
      [([("currentHolder", vArr ["A"])], 1), ([("currentHolder", vArr ["A"])], 2)]
      initMonitor).statistics.tokenCirculations = 1
      ∧ (runTokenUpdates
          [([("currentHolder", vStr "A")], 1), ([("currentHolder", vStr "A")], 2)]
          initMonitor).statistics.tokenCirculations = 0 := by
  decide

/-! ## Claim C2 -/

/-- C2 counterexample: right after the updateDfsState apply of dfsStaleRun,
the stored statistics differ from a full recomputation: the stored
dfsCompletionRate is 0 while recomputation gives 100, because
updateDfsState does not recompute the statistics. -/
theorem C2_counterexample :
    ¬ statsConsistent dfsStaleRun 2
      ∧ dfsStaleRun.statistics.dfsCompletionRate = 0
      ∧ (calculateGlobalStatistics dfsStaleRun 2).statistics.dfsCompletionRate
          = 100 := by
  have hstale : dfsStaleRun.statistics.dfsCompletionRate = gsDfsRate staleMid := rfl
  have ha : gsActiveNodes staleMid = 1 := by decide
  have hv : jget staleMid.tokenStatus "visitedCount" = some (vInt 0) := by decide
  have h0 : dfsStaleRun.statistics.dfsCompletionRate = 0 := by
    rw [hstale, gsDfsRate, ha, hv]
    norm_num [valToQ]
  have hre : (calculateGlobalStatistics dfsStaleRun 2).statistics.dfsCompletionRate
      = gsDfsRate dfsStaleRun := rfl
  have ha' : gsActiveNodes dfsStaleRun = 1 := by decide
  have hv' : jget dfsStaleRun.tokenStatus "visitedCount" = some (vInt 1) := by decide
  have h100 : (calculateGlobalStatistics dfsStaleRun 2).statistics.dfsCompletionRate
      = 100 := by
    rw [hre, gsDfsRate, ha', hv']
    norm_num [valToQ]
  refine ⟨?_, h0, h100⟩
  intro hcons
  have := congrArg (fun m => m.statistics.dfsCompletionRate) hcons
  simp only at this
  rw [h100, h0] at this
  norm_num at this

theorem holdTimes_calcG (m : Monitor) (now t : Nat) :
    holdTimes (calculateGlobalStatistics m now) t = holdTimes m t := rfl

theorem gsAvgHold_idem (m : Monitor) (now : Nat) :
    gsAvgHold (calculateGlobalStatistics m now) now = gsAvgHold m now := by
  unfold gsAvgHold
  rw [holdTimes_calcG]
  by_cases h : 1 < (holdTimes m now).length
  · rw [if_pos h, if_pos h]
    have hint : holdIntervals (calculateGlobalStatistics m now) now
        = holdIntervals m now := rfl
    rw [hint]
  · rw [if_neg h, if_neg h]
    show gsAvgHold m now = _
    unfold gsAvgHold
    rw [if_neg h]

theorem calcG_idem (m : Monitor) (now : Nat) :
    calculateGlobalStatistics (calculateGlobalStatistics m now) now
      = calculateGlobalStatistics m now := by
  have h : (calculateGlobalStatistics (calculateGlobalStatistics m now) now).statistics
      = (calculateGlobalStatistics m now).statistics := by
    show ({ totalNodes := gsTotalNodes (calculateGlobalStatistics m now),
            activeNodes := gsActiveNodes (calculateGlobalStatistics m now),
            totalBandwidth := gsTotalBandwidth (calculateGlobalStatistics m now),
            messagesRelayed := gsMessagesRelayed (calculateGlobalStatistics m now),
            tokenCirculations :=
              (calculateGlobalStatistics m now).statistics.tokenCirculations,
            averageTokenHoldTime := gsAvgHold (calculateGlobalStatistics m now) now,
            networkEfficiency := gsEff (calculateGlobalStatistics m now),
            dfsCompletionRate := gsDfsRate (calculateGlobalStatistics m now) }
          : Statistics) = _
    rw [gsAvgHold_idem]
    rfl
  calc calculateGlobalStatistics (calculateGlobalStatistics m now) now
      = { calculateGlobalStatistics m now with
          statistics :=
            (calculateGlobalStatistics (calculateGlobalStatistics m now) now).statistics }
        := rfl
    _ = { calculateGlobalStatistics m now with
          statistics := (calculateGlobalStatistics m now).statistics } := by rw [h]
    _ = calculateGlobalStatistics m now := rfl

theorem updateStatistics_consistent (statsData : Option JsObj) (now : Nat)
    (m : Monitor) : statsConsistent (updateStatistics statsData now m) now := by
  unfold statsConsistent updateStatistics
  exact calcG_idem _ now

/-- C2 amended: the aggregator's statistics equal their full recomputation
right after every updateStatistics apply, and after every updateNode apply
whose merged neighbors value is absent, falsy or an array, so that the
topology rebuild completes and the trailing recomputation runs (these paths
end in calculateGlobalStatistics, which is idempotent at a fixed instant);
a truthy non-array merged neighbors makes updateNode throw before
recomputing, and the three remaining apply operations never recompute. -/
theorem C2_amended_consistency (nodeId : NodeId) (nodeInfo : JsObj)
    (statsData : Option JsObj) (now : Nat) (m : Monitor)
    (hnb : neighborsOk
        (jget (nodeInfo ++ ((aget m.nodes nodeId).getD [])) "neighbors")
        = true) :
    statsConsistent (updateNode nodeId nodeInfo now m) now
      ∧ statsConsistent (updateStatistics statsData now m) now := by
  constructor
  · have hup : jget (("lastUpdated", vInt now)
          :: (nodeInfo ++ ((aget m.nodes nodeId).getD []))) "neighbors"
        = jget (nodeInfo ++ ((aget m.nodes nodeId).getD [])) "neighbors" := by
      simp [jget]
    have hf := topoFrom_noThrow nodeId
      (("lastUpdated", vInt now) :: (nodeInfo ++ ((aget m.nodes nodeId).getD [])))
      ({ m with nodes := mapSet m.nodes nodeId
                  (("lastUpdated", vInt now)
                    :: (nodeInfo ++ ((aget m.nodes nodeId).getD []))) })
      (by rw [hup]; exact hnb)
    simp only [updateNode]
    rw [hf, if_neg Bool.false_ne_true]
    exact updateStatistics_consistent none now _
  · exact updateStatistics_consistent statsData now m

/-- The proviso of the amended consistency claim is necessary: a node_info
report with a truthy non-array neighbors value aborts updateNode in the
topology rebuild, so the stored record exists but the statistics were not
recomputed (stored totalNodes stays 1 where recomputation gives 2). -/
theorem updateNode_throw_stale :
    mapHas throwRun.nodes "B" = true
      ∧ throwRun.statistics.totalNodes = 1
      ∧ (calculateGlobalStatistics throwRun 2).statistics.totalNodes = 2 := by
  decide

/-- C2 witness: a report without a neighbors field and a plain statistics
update. -/
theorem C2_amended_consistency_witness :
    statsConsistent (updateNode "A" [("nodeId", vStr "A")] 1 initMonitor) 1
      ∧ statsConsistent
          (updateStatistics (some [("nodeId", vStr "A")]) 1 initMonitor) 1 :=
  C2_amended_consistency "A" [("nodeId", vStr "A")]
    (some [("nodeId", vStr "A")]) 1 initMonitor (by decide)

/-! ## Claim C6 -/

/-- C6 counterexample: a statistics_update carrying messagesRelayed = -1
followed by two token circulations and a recomputation drives
networkEfficiency to -100, outside the claimed interval. -/
theorem C6_counterexample :
    negativeEffRun.statistics.networkEfficiency = -100
      ∧ ¬ (0 ≤ negativeEffRun.statistics.networkEfficiency) := by
  have h0 : negativeEffRun.statistics.networkEfficiency = gsEff negEffMid := rfl
  have hm : gsMessagesRelayed negEffMid = -1 := by decide
  have htc : negEffMid.statistics.tokenCirculations = 2 := by decide
  have heff : negativeEffRun.statistics.networkEfficiency = -100 := by
    rw [h0, gsEff, hm, htc]
    norm_num
  refine ⟨heff, ?_⟩
  rw [heff]
  norm_num

/-! ## Claim C8 -/

/-! ## Claim C5, amended part -/

/-- C5 amended: playback loads the session's events ordered by nondecreasing
recorded timestamp (a permutation of the session's rows), and emits exactly
those events in loaded order followed by one completion signal. -/
theorem C5_amended_playback (sessionId : String) (rows : List EventRow) :
    List.Sorted rowLE (getRecordingEvents sessionId rows)
      ∧ (getRecordingEvents sessionId rows).Perm
          (rows.filter (fun e => e.sessionId = sessionId))
      ∧ startPlayback sessionId rows
          = (getRecordingEvents sessionId rows).map PlaybackEmit.pevent
              ++ [PlaybackEmit.pcomplete] :=
  ⟨List.sorted_insertionSort rowLE _, List.perm_insertionSort rowLE _, rfl⟩

/-! ## Claim C7: the message framer -/

theorem splitNl_nlFree (s : List Char) (h : ∀ c ∈ s, c ≠ '\n') :
    splitNl s = [s] := by
  induction s with
  | nil => rfl
  | cons c rest ih =>
      have hc : c ≠ '\n' := h c (List.mem_cons_self c rest)
      have hrest : ∀ x ∈ rest, x ≠ '\n' := fun x hx => h x (List.mem_cons_of_mem c hx)
      simp [splitNl, hc, ih hrest]

theorem splitNl_append_nl (a t : List Char) (h : ∀ c ∈ a, c ≠ '\n') :
    splitNl (a ++ '\n' :: t) = a :: splitNl t := by
  induction a with
  | nil => simp [splitNl]
  | cons c rest ih =>
      have hc : c ≠ '\n' := h c (List.mem_cons_self c rest)
      have hrest : ∀ x ∈ rest, x ≠ '\n' := fun x hx => h x (List.mem_cons_of_mem c hx)
      simp [splitNl, hc, ih hrest]

/-- C7: the framer splits the per-connection stream on newlines and keeps
the text after the last newline as the buffer for the next read; a line the
parser rejects is dropped on its own, and a valid line that follows — even
one split across two reads — is still delivered.  Here a malformed line
arrives in the first chunk together with the first half of a valid line,
whose second half arrives in the next chunk: exactly the valid message is
emitted and the trailing text is retained. -/
theorem C7_framer {α : Type} (parse : List Char → Option α)
    (bad v1 v2 rest : List Char) (msg : α)
    (hb : ∀ c ∈ bad, c ≠ '\n') (hv1 : ∀ c ∈ v1, c ≠ '\n')
    (hv2 : ∀ c ∈ v2, c ≠ '\n') (hr : ∀ c ∈ rest, c ≠ '\n')
    (hpb : parse bad = none)
    (hblank : (v1 ++ v2).all Char.isWhitespace = false)
    (hpv : parse (v1 ++ v2) = some msg) :
    feedMany parse [] [bad ++ '\n' :: v1, v2 ++ '\n' :: rest]
      = (rest, [msg]) := by
  have h1 : splitNl (bad ++ '\n' :: v1) = [bad, v1] := by
    rw [splitNl_append_nl bad v1 hb, splitNl_nlFree v1 hv1]
  have hv12 : ∀ c ∈ v1 ++ v2, c ≠ '\n' := by
    intro c hc
    rcases List.mem_append.1 hc with h | h
    · exact hv1 c h
    · exact hv2 c h
  have h2 : splitNl (v1 ++ v2 ++ '\n' :: rest) = [v1 ++ v2, rest] := by
    rw [splitNl_append_nl (v1 ++ v2) rest hv12, splitNl_nlFree rest hr]
  have hb' : processLine parse bad = none := by
    unfold processLine
    split <;> simp [hpb]
  have hv' : processLine parse (v1 ++ v2) = some msg := by
    unfold processLine
    rw [if_neg (by simp [hblank])]
    exact hpv
  simp [feedMany, feedData, h1, ← List.append_assoc, h2, hb', hv']

/-- C7 witness: a truncated line followed by a valid line split across two
reads; the valid message alone is delivered and the tail is buffered. -/
theorem C7_framer_witness :
    feedMany (fun l => if l = "ok".toList then some 7 else none) []
      ["\x7b\"type\":".toList ++ '\n' :: "o".toList,
       "k".toList ++ '\n' :: "rest".toList]
      = ("rest".toList, [7]) :=
  C7_framer (fun l => if l = "ok".toList then some 7 else none)
    ("\x7b\"type\":".toList) ("o".toList) ("k".toList) ("rest".toList) 7
    (by decide) (by decide) (by decide) (by decide) (by decide) (by decide)
    (by decide)

/-! ## Claim C8, counterexample part -/

/-- C8 counterexample: a node_info report carrying an explicit null ip
overwrites the earlier non-null ip, so the stored field is null rather than
the last non-null value the claim requires. -/
theorem C8_counterexample :
    getNodeField nullOverwriteRun.monitor "node_A" "ip" = some vNull
      ∧ lastNonNull "ip"
          [[("nodeId", vStr "node_A"), ("ip", vStr "1.2.3.4")],
           [("nodeId", vStr "node_A"), ("ip", vNull)]]
        = some (vStr "1.2.3.4")
      ∧ some vNull ≠ some (vStr "1.2.3.4") := by
  decide

/-! ## Claim C8, amended part -/

theorem updateNode_nodes (nodeId : NodeId) (nodeInfo : JsObj) (now : Nat)
    (m : Monitor) :
    (updateNode nodeId nodeInfo now m).nodes
      = mapSet m.nodes nodeId
          (("lastUpdated", vInt now)
            :: (nodeInfo ++ ((aget m.nodes nodeId).getD []))) := by
  simp only [updateNode]
  split
  · rw [topoFrom_nodes]
  · rw [updStats_nodes_none, topoFrom_nodes]

theorem handleNodeInfo_monitor_nodes (d : JsObj) (t : Nat) (s : Server)
    (nid : NodeId) (hd : jget d "nodeId" = some (vStr nid)) :
    (handleNodeInfo d t s).monitor.nodes
      = mapSet s.monitor.nodes nid
          (("lastUpdated", vInt t)
            :: ((("status", vStr "active") :: ("lastSeen", vInt t) :: d)
                ++ ((aget s.monitor.nodes nid).getD []))) := by
  unfold handleNodeInfo
  simp only [hd, updateNode_nodes]

theorem getNodeField_handleNodeInfo (d : JsObj) (t : Nat) (s : Server)
    (nid : NodeId) (k : String) (hd : jget d "nodeId" = some (vStr nid))
    (hk1 : k ≠ "status") (hk2 : k ≠ "lastSeen") (hk3 : k ≠ "lastUpdated") :
    getNodeField (handleNodeInfo d t s).monitor nid k
      = (jget d k).orElse (fun _ => getNodeField s.monitor nid k) := by
  have hn := handleNodeInfo_monitor_nodes d t s nid hd
  cases ho : aget s.monitor.nodes nid <;> cases hj : jget d k <;>
    simp [getNodeField, hn, aget_mapSet, ho, hj, jget, jget_append,
      Ne.symm hk1, Ne.symm hk2, Ne.symm hk3, Option.orElse]

theorem getNodeField_handleNodeInfo_lastSeen (d : JsObj) (t : Nat) (s : Server)
    (nid : NodeId) (hd : jget d "nodeId" = some (vStr nid)) :
    getNodeField (handleNodeInfo d t s).monitor nid "lastSeen"
      = some (vInt t) := by
  have hn := handleNodeInfo_monitor_nodes d t s nid hd
  simp [getNodeField, hn, aget_mapSet, jget, jget_append, Option.orElse]

theorem getNodeField_handleNodeInfo_status (d : JsObj) (t : Nat) (s : Server)
    (nid : NodeId) (hd : jget d "nodeId" = some (vStr nid)) :
    getNodeField (handleNodeInfo d t s).monitor nid "status"
      = some (vStr "active") := by
  have hn := handleNodeInfo_monitor_nodes d t s nid hd
  simp [getNodeField, hn, aget_mapSet, jget, jget_append, Option.orElse]

theorem runReports_general (reports : List (JsObj × Nat)) (nid : NodeId)
    (k : String)
    (hall : ∀ p ∈ reports, jget p.1 "nodeId" = some (vStr nid))
    (hk1 : k ≠ "status") (hk2 : k ≠ "lastSeen") (hk3 : k ≠ "lastUpdated") :
    ∀ s : Server,
      getNodeField
          ((reports.foldl (fun s r => handleNodeInfo r.1 r.2 s) s)).monitor nid k
        = (lastPresent k (reports.map Prod.fst)).orElse
            (fun _ => getNodeField s.monitor nid k) := by
  induction reports with
  | nil =>
      intro s
      cases h : getNodeField s.monitor nid k <;>
        simp [lastPresent, h, Option.orElse]
  | cons r rest ih =>
      intro s
      obtain ⟨d, t⟩ := r
      have hd : jget d "nodeId" = some (vStr nid) :=
        hall (d, t) (List.mem_cons_self _ _)
      have hall' : ∀ p ∈ rest, jget p.1 "nodeId" = some (vStr nid) :=
        fun p hp => hall p (List.mem_cons_of_mem _ hp)
      rw [List.foldl_cons, ih hall' (handleNodeInfo d t s),
        getNodeField_handleNodeInfo d t s nid k hd hk1 hk2 hk3]
      cases h1 : lastPresent k (rest.map Prod.fst) <;>
        cases h2 : jget d k <;>
          simp [lastPresent, h1, h2, Option.orElse]

theorem runReports_lastSeen (reports : List (JsObj × Nat)) (nid : NodeId)
    (hall : ∀ p ∈ reports, jget p.1 "nodeId" = some (vStr nid))
    (hne : reports ≠ []) :
    ∀ s : Server,
      getNodeField
          ((reports.foldl (fun s r => handleNodeInfo r.1 r.2 s) s)).monitor nid
          "lastSeen"
        = some (vInt (lastTs reports)) := by
  induction reports with
  | nil => exact absurd rfl hne
  | cons r rest ih =>
      intro s
      obtain ⟨d, t⟩ := r
      have hd : jget d "nodeId" = some (vStr nid) :=
        hall (d, t) (List.mem_cons_self _ _)
      have hall' : ∀ p ∈ rest, jget p.1 "nodeId" = some (vStr nid) :=
        fun p hp => hall p (List.mem_cons_of_mem _ hp)
      cases hres : rest with
      | nil =>
          subst hres
          rw [List.foldl_cons]
          simp only [List.foldl_nil]
          rw [getNodeField_handleNodeInfo_lastSeen d t s nid hd]
          rfl
      | cons r2 rest2 =>
          subst hres
          rw [List.foldl_cons]
          rw [ih hall' (by simp) (handleNodeInfo d t s)]
          rfl

theorem runReports_status (reports : List (JsObj × Nat)) (nid : NodeId)
    (hall : ∀ p ∈ reports, jget p.1 "nodeId" = some (vStr nid))
    (hne : reports ≠ []) :
    ∀ s : Server,
      getNodeField
          ((reports.foldl (fun s r => handleNodeInfo r.1 r.2 s) s)).monitor nid
          "status"
        = some (vStr "active") := by
  induction reports with
  | nil => exact absurd rfl hne
  | cons r rest ih =>
      intro s
      obtain ⟨d, t⟩ := r
      have hd : jget d "nodeId" = some (vStr nid) :=
        hall (d, t) (List.mem_cons_self _ _)
      have hall' : ∀ p ∈ rest, jget p.1 "nodeId" = some (vStr nid) :=
        fun p hp => hall p (List.mem_cons_of_mem _ hp)
      cases hres : rest with
      | nil =>
          subst hres
          rw [List.foldl_cons]
          simp only [List.foldl_nil]
          exact getNodeField_handleNodeInfo_status d t s nid hd
      | cons r2 rest2 =>
          subst hres
          rw [List.foldl_cons]
          exact ih hall' (by simp) (handleNodeInfo d t s)

/-- C8 amended: over any nonempty sequence of node_info reports for the same
nodeId, the registration handler itself stamps three fields — status is
always the string active regardless of the status the report supplies,
lastSeen is the timestamp of the most recent report, and lastUpdated is the
monitor's own stamp (the live socket handle it also stores is outside this
model) — and every other stored field equals the last value present for it
among the reports: an absent field keeps the previous value, an explicit
null overwrites. -/
theorem C8_amended_merge (reports : List (JsObj × Nat)) (nid : NodeId)
    (k : String)
    (hall : ∀ p ∈ reports, jget p.1 "nodeId" = some (vStr nid))
    (hne : reports ≠ [])
    (hk1 : k ≠ "status") (hk2 : k ≠ "lastSeen") (hk3 : k ≠ "lastUpdated")
    (_hk4 : k ≠ "socket") :
    getNodeField (runNodeInfoReports reports).monitor nid k
        = lastPresent k (reports.map Prod.fst)
      ∧ getNodeField (runNodeInfoReports reports).monitor nid "status"
        = some (vStr "active")
      ∧ getNodeField (runNodeInfoReports reports).monitor nid "lastSeen"
        = some (vInt (lastTs reports)) := by
  refine ⟨?_, runReports_status reports nid hall hne initServer,
    runReports_lastSeen reports nid hall hne initServer⟩
  have h := runReports_general reports nid k hall hk1 hk2 hk3 initServer
  rw [show runNodeInfoReports reports
      = reports.foldl (fun s r => handleNodeInfo r.1 r.2 s) initServer from rfl, h]
  have hinit : getNodeField initServer.monitor nid k = none := rfl
  rw [hinit]
  cases h1 : lastPresent k (reports.map Prod.fst) <;> simp [h1, Option.orElse]

/-- C8 witness: one report supplying an ip, a second omitting it but
carrying a status the handler overrides; the stored ip is the first
report's value, status is active, and lastSeen is the second timestamp. -/
theorem C8_amended_merge_witness :
    getNodeField
        (runNodeInfoReports
          [([("nodeId", vStr "n"), ("ip", vStr "a")], 5),
           ([("nodeId", vStr "n"), ("status", vStr "warning")], 9)]).monitor "n" "ip"
      = lastPresent "ip"
          [[("nodeId", vStr "n"), ("ip", vStr "a")],
           [("nodeId", vStr "n"), ("status", vStr "warning")]]
    ∧ getNodeField
        (runNodeInfoReports
          [([("nodeId", vStr "n"), ("ip", vStr "a")], 5),
           ([("nodeId", vStr "n"), ("status", vStr "warning")], 9)]).monitor "n"
          "status"
      = some (vStr "active")
    ∧ getNodeField
        (runNodeInfoReports
          [([("nodeId", vStr "n"), ("ip", vStr "a")], 5),
           ([("nodeId", vStr "n"), ("status", vStr "warning")], 9)]).monitor "n"
          "lastSeen"
      = some (vInt (lastTs
          [([("nodeId", vStr "n"), ("ip", vStr "a")], 5),
           ([("nodeId", vStr "n"), ("status", vStr "warning")], 9)])) :=
  C8_amended_merge
    [([("nodeId", vStr "n"), ("ip", vStr "a")], 5),
     ([("nodeId", vStr "n"), ("status", vStr "warning")], 9)]
    "n" "ip" (by decide) (by decide) (by decide) (by decide) (by decide)
    (by decide)

/-! ## Claim C9: edge endpoints are always known nodes -/

theorem mem_edges_topoFrom {e : Edge} (nid : NodeId) (info : JsObj)
    (m : Monitor) (h : e ∈ ((updateTopologyFromNode nid info m).1).topoEdges) :
    e ∈ m.topoEdges ∨ (e.fromNode = nid ∧ mapHas m.nodes e.toNode = true) := by
  unfold updateTopologyFromNode at h
  cases hn : jget info "neighbors" with
  | none =>
      simp only [hn] at h
      exact Or.inl h
  | some v =>
      cases v with
      | vArr neigh =>
          simp only [hn] at h
          rcases List.mem_append.1 h with h1 | h1
          · exact Or.inl (List.mem_filter.1 h1).1
          · right
            obtain ⟨nb, hnb, rfl⟩ := List.mem_map.1 h1
            have h2 := (List.mem_filter.1 hnb).2
            exact ⟨rfl, by simpa using h2⟩
      | vNull =>
          simp only [hn] at h
          split at h
          · exact Or.inl (List.mem_filter.1 h).1
          · exact Or.inl h
      | vBool b =>
          simp only [hn] at h
          split at h
          · exact Or.inl (List.mem_filter.1 h).1
          · exact Or.inl h
      | vInt n =>
          simp only [hn] at h
          split at h
          · exact Or.inl (List.mem_filter.1 h).1
          · exact Or.inl h
      | vStr s =>
          simp only [hn] at h
          split at h
          · exact Or.inl (List.mem_filter.1 h).1
          · exact Or.inl h

theorem edgesWf_topoFrom {m : Monitor} (nid : NodeId) (info : JsObj)
    (hfrom : mapHas m.nodes nid = true) (h : edgesWf m) :
    edgesWf ((updateTopologyFromNode nid info m).1) := by
  intro e he
  rw [topoFrom_nodes]
  rcases mem_edges_topoFrom nid info m he with h1 | ⟨h1, h2⟩
  · exact h e h1
  · rw [h1]
    exact ⟨hfrom, h2⟩

theorem updStats_edges (sd : Option JsObj) (now : Nat) (m : Monitor) :
    (updateStatistics sd now m).topoEdges = m.topoEdges := by
  unfold updateStatistics
  repeat' split
  all_goals rfl

theorem updStats_nodes_has (sd : Option JsObj) (now : Nat) (m : Monitor)
    (k : String) (h : mapHas m.nodes k = true) :
    mapHas (updateStatistics sd now m).nodes k = true := by
  unfold updateStatistics
  repeat' split
  all_goals first
    | exact h
    | exact mapHas_of_mapHas_set _ _ h

theorem updTok_edges (d : JsObj) (now : Nat) (m : Monitor) :
    (updateTokenStatus d now m).topoEdges = m.topoEdges := rfl

theorem updTok_nodes_has (d : JsObj) (now : Nat) (m : Monitor) (k : String)
    (h : mapHas m.nodes k = true) :
    mapHas (updateTokenStatus d now m).nodes k = true := by
  unfold updateTokenStatus
  repeat' split
  all_goals first
    | exact h
    | exact mapHas_of_mapHas_set _ _ h

theorem updDfs_nodes (d : JsObj) (now : Nat) (m : Monitor) :
    (updateDfsState d now m).nodes = m.nodes := by
  unfold updateDfsState
  repeat' split
  all_goals rfl

theorem updDfs_edges (d : JsObj) (now : Nat) (m : Monitor) :
    (updateDfsState d now m).topoEdges = m.topoEdges := by
  unfold updateDfsState
  repeat' split
  all_goals rfl

theorem edgesWf_updStatsNone (now : Nat) (m : Monitor) (h : edgesWf m) :
    edgesWf (updateStatistics none now m) := by
  intro e he
  rw [updStats_edges] at he
  obtain ⟨h1, h2⟩ := h e he
  exact ⟨updStats_nodes_has none now m _ h1, updStats_nodes_has none now m _ h2⟩

theorem edgesWf_step (op : MOp) (m : Monitor) (h : edgesWf m) :
    edgesWf (step op m) := by
  cases op with
  | opNodeInfo nid info now =>
      show edgesWf (updateNode nid info now m)
      have hwf : edgesWf ((updateTopologyFromNode nid
          (("lastUpdated", vInt now) :: (info ++ ((aget m.nodes nid).getD [])))
          ({ m with nodes := mapSet m.nodes nid
                      (("lastUpdated", vInt now)
                        :: (info ++ ((aget m.nodes nid).getD []))) })).1) := by
        apply edgesWf_topoFrom
        · rw [mapHas_mapSet]
          exact Or.inl rfl
        · intro e he
          obtain ⟨h1, h2⟩ := h e he
          exact ⟨mapHas_of_mapHas_set _ _ h1, mapHas_of_mapHas_set _ _ h2⟩
      simp only [updateNode]
      split
      · exact hwf
      · exact edgesWf_updStatsNone now _ hwf
  | opTokenStatus d now =>
      show edgesWf (updateTokenStatus d now m)
      intro e he
      rw [updTok_edges] at he
      obtain ⟨h1, h2⟩ := h e he
      exact ⟨updTok_nodes_has d now m _ h1, updTok_nodes_has d now m _ h2⟩
  | opTopology td =>
      show edgesWf (updateTopology td m)
      unfold updateTopology
      split
      · split
        · split
          · apply edgesWf_topoFrom
            · rw [mapHas_mapSet]
              exact Or.inl rfl
            · intro e he
              obtain ⟨h1, h2⟩ := h e he
              exact ⟨mapHas_of_mapHas_set _ _ h1, mapHas_of_mapHas_set _ _ h2⟩
          · exact h
        · exact h
      · exact h
  | opStatistics sd now =>
      show edgesWf (updateStatistics sd now m)
      intro e he
      rw [updStats_edges] at he
      obtain ⟨h1, h2⟩ := h e he
      exact ⟨updStats_nodes_has sd now m _ h1, updStats_nodes_has sd now m _ h2⟩
  | opDfs d now =>
      show edgesWf (updateDfsState d now m)
      intro e he
      rw [updDfs_edges] at he
      rw [updDfs_nodes]
      exact h e he
  | opRemove nid now =>
      intro e he
      show mapHas (mapDel m.nodes nid) e.fromNode = true
        ∧ mapHas (mapDel m.nodes nid) e.toNode = true
      have he' : e ∈ m.topoEdges.filter
          (fun e => e.fromNode ≠ nid ∧ e.toNode ≠ nid) := he
      obtain ⟨hin, hcond⟩ := List.mem_filter.1 he'
      have hcond' : e.fromNode ≠ nid ∧ e.toNode ≠ nid := by simpa using hcond
      obtain ⟨h1, h2⟩ := h e hin
      constructor
      · rw [mapHas_mapDel]
        exact ⟨hcond'.1, h1⟩
      · rw [mapHas_mapDel]
        exact ⟨hcond'.2, h2⟩
  | opReset now =>
      intro e he
      exact absurd he (List.not_mem_nil e)

/-- C9: in every state reachable by a trace of monitor operations, every
topology edge has both endpoints present in the current node map. -/
theorem C9_edges_endpoints (ops : List MOp) (e : Edge)
    (he : e ∈ (runTrace ops).topoEdges) :
    mapHas (runTrace ops).nodes e.fromNode = true
      ∧ mapHas (runTrace ops).nodes e.toNode = true := by
  suffices h : edgesWf (runTrace ops) from h e he
  have hfold : ∀ (l : List MOp) (m : Monitor), edgesWf m →
      edgesWf (l.foldl (fun m op => step op m) m) := by
    intro l
    induction l with
    | nil => exact fun m hm => hm
    | cons op rest ih => exact fun m hm => ih _ (edgesWf_step op m hm)
  exact hfold ops initMonitor (fun e he => absurd he (List.not_mem_nil e))

/-! ## Claim C6, amended part -/

theorem aget_mem {α : Type} {l : List (String × α)} {k : String} {v : α}
    (h : aget l k = some v) : (k, v) ∈ l := by
  induction l with
  | nil => simp [aget] at h
  | cons q rest ih =>
      obtain ⟨k0, v0⟩ := q
      by_cases hk : k0 = k
      · subst hk
        simp [aget] at h
        simp [h]
      · simp [aget, hk] at h
        exact List.mem_cons_of_mem _ (ih h)

theorem mem_mapSet {α : Type} {l : List (String × α)} {k : String} {v : α}
    {p : String × α} (h : p ∈ mapSet l k v) : p = (k, v) ∨ p ∈ l := by
  induction l with
  | nil => simpa [mapSet] using h
  | cons q rest ih =>
      obtain ⟨k0, v0⟩ := q
      by_cases hk : k0 = k
      · subst hk
        simp only [mapSet, if_pos rfl] at h
        rcases List.mem_cons.1 h with h | h
        · exact Or.inl h
        · exact Or.inr (List.mem_cons_of_mem _ h)
      · simp only [mapSet, if_neg hk] at h
        rcases List.mem_cons.1 h with h | h
        · exact Or.inr (by simp [h])
        · rcases ih h with h | h
          · exact Or.inl h
          · exact Or.inr (List.mem_cons_of_mem _ h)

theorem valNumOrZero_nonneg {a : Option Value} (h : counterFieldOk a = true) :
    0 ≤ valNumOrZero a := by
  cases a with
  | none => simp [valNumOrZero]
  | some v =>
      cases v <;> simp [valNumOrZero, counterFieldOk] at h ⊢
      exact h

theorem payloadCountersOk_iff (o : JsObj) :
    payloadCountersOk o = true
      ↔ counterFieldOk (jget o "bytesSent") = true
        ∧ counterFieldOk (jget o "bytesReceived") = true
        ∧ counterFieldOk (jget o "messagesRelayed") = true := by
  simp [payloadCountersOk, Bool.and_eq_true, and_assoc]

theorem gsMessagesRelayed_nonneg (m : Monitor) (hD : nodesOk m) :
    0 ≤ gsMessagesRelayed m := by
  unfold gsMessagesRelayed
  apply List.sum_nonneg
  intro x hx
  obtain ⟨o, ho, rfl⟩ := List.mem_map.1 hx
  obtain ⟨p, hp, rfl⟩ := List.mem_map.1 ho
  have hok := (payloadCountersOk_iff p.2).1 (hD p hp)
  exact valNumOrZero_nonneg hok.2.2

theorem gsEff_bounds (m : Monitor) (hmsg : 0 ≤ gsMessagesRelayed m) :
    0 ≤ gsEff m ∧ gsEff m ≤ 100
      ∧ (gsMessagesRelayed m + (m.statistics.tokenCirculations : Int) = 0
          → gsEff m = 0) := by
  have htc0 : (0:Int) ≤ (m.statistics.tokenCirculations : Int) :=
    Int.natCast_nonneg _
  simp only [gsEff]
  by_cases hpos :
      (0:Int) < (m.statistics.tokenCirculations : Int) + gsMessagesRelayed m
  · rw [if_pos hpos]
    have hd : (0:ℚ)
        < (((m.statistics.tokenCirculations : Int) + gsMessagesRelayed m : Int) : ℚ) := by
      exact_mod_cast hpos
    refine ⟨?_, ?_, ?_⟩
    · apply mul_nonneg _ (by norm_num)
      exact div_nonneg (by exact_mod_cast hmsg) (le_of_lt hd)
    · have h1 : (gsMessagesRelayed m : ℚ)
          / (((m.statistics.tokenCirculations : Int) + gsMessagesRelayed m : Int) : ℚ)
          ≤ 1 := by
        rw [div_le_one hd]
        exact_mod_cast le_add_of_nonneg_left htc0
      calc (gsMessagesRelayed m : ℚ)
          / (((m.statistics.tokenCirculations : Int) + gsMessagesRelayed m : Int) : ℚ)
          * 100
          ≤ 1 * 100 := mul_le_mul_of_nonneg_right h1 (by norm_num)
        _ = 100 := one_mul _
    · intro h0
      exfalso
      omega
  · rw [if_neg hpos]
    exact ⟨le_refl 0, by norm_num, fun _ => rfl⟩

theorem counterFieldOk_orElse {a b : Option Value}
    (ha : counterFieldOk a = true) (hb : counterFieldOk b = true) :
    counterFieldOk (a.orElse fun _ => b) = true := by
  cases a <;> simp [Option.orElse, ha, hb]

theorem counterFieldOk_jsOrVal {a : Option Value}
    (ha : counterFieldOk a = true) :
    counterFieldOk (some (jsOrVal a (vInt 0))) = true := by
  cases a with
  | none => decide
  | some v =>
      cases v with
      | vNull => decide
      | vBool b => simp [counterFieldOk] at ha
      | vStr s => simp [counterFieldOk] at ha
      | vArr l => simp [counterFieldOk] at ha
      | vInt n =>
          have hn : (0:Int) ≤ n := by simpa [counterFieldOk] using ha
          by_cases h : n = 0
          · simp [jsOrVal, jsTruthy, h, counterFieldOk]
          · simp only [jsOrVal, jsTruthy]
            rw [if_pos (by simpa using h)]
            simpa [counterFieldOk] using hn

theorem jget_cons_other {k k' : String} {v : Value} {o : JsObj}
    (h : k ≠ k') : jget ((k, v) :: o) k' = jget o k' := by
  simp [jget, h]

theorem payloadCountersOk_cons_other {k : String} {v : Value} {o : JsObj}
    (h1 : k ≠ "bytesSent") (h2 : k ≠ "bytesReceived")
    (h3 : k ≠ "messagesRelayed") (h : payloadCountersOk o = true) :
    payloadCountersOk ((k, v) :: o) = true := by
  rw [payloadCountersOk_iff] at h ⊢
  rw [jget_cons_other h1, jget_cons_other h2, jget_cons_other h3]
  exact h

theorem payloadCountersOk_append {a b : JsObj}
    (ha : payloadCountersOk a = true) (hb : payloadCountersOk b = true) :
    payloadCountersOk (a ++ b) = true := by
  rw [payloadCountersOk_iff] at ha hb ⊢
  rw [jget_append, jget_append, jget_append]
  exact ⟨counterFieldOk_orElse ha.1 hb.1,
    counterFieldOk_orElse ha.2.1 hb.2.1,
    counterFieldOk_orElse ha.2.2 hb.2.2⟩

theorem nodesOk_old (m : Monitor) (nid : NodeId) (hD : nodesOk m) :
    payloadCountersOk ((aget m.nodes nid).getD []) = true := by
  cases h : aget m.nodes nid with
  | none => decide
  | some o => exact hD (nid, o) (aget_mem h)

theorem nodesOk_mapSet {m : Monitor} {nid : NodeId} {o : JsObj}
    (hD : nodesOk m) (ho : payloadCountersOk o = true) :
    ∀ p ∈ mapSet m.nodes nid o, payloadCountersOk p.2 = true := by
  intro p hp
  rcases mem_mapSet hp with h | h
  · rw [h]
    exact ho
  · exact hD p h

theorem effInv_calcG (m : Monitor) (now : Nat) (hD : nodesOk m) :
    effInv (calculateGlobalStatistics m now) := by
  have hmsg := gsMessagesRelayed_nonneg m hD
  obtain ⟨h0, h100, hz⟩ := gsEff_bounds m hmsg
  exact ⟨hmsg, h0, h100, hz, hD⟩

theorem effInv_updateStatistics (sd : Option JsObj) (now : Nat) (m : Monitor)
    (hD : nodesOk m)
    (hop : ∀ s, sd = some s → payloadCountersOk s = true) :
    effInv (updateStatistics sd now m) := by
  unfold updateStatistics
  apply effInv_calcG
  cases sd with
  | none => exact hD
  | some s =>
      have hs := hop s rfl
      cases hnid : jget s "nodeId" with
      | none => simpa [hnid] using hD
      | some v =>
          cases v with
          | vStr str =>
              simp only [hnid]
              by_cases hstr : str ≠ ""
              · rw [if_pos hstr]
                cases hnode : aget m.nodes str with
                | none => exact hD
                | some node =>
                    intro p hp
                    rcases mem_mapSet hp with h | h
                    · rw [h]
                      rw [payloadCountersOk_iff] at hs
                      show payloadCountersOk _ = true
                      rw [payloadCountersOk_iff]
                      exact ⟨counterFieldOk_jsOrVal hs.1,
                        counterFieldOk_jsOrVal hs.2.1,
                        counterFieldOk_jsOrVal hs.2.2⟩
                    · exact hD p h
              · rw [if_neg hstr]
                exact hD
          | vNull => simpa [hnid] using hD
          | vBool b => simpa [hnid] using hD
          | vInt n => simpa [hnid] using hD
          | vArr l => simpa [hnid] using hD

theorem updTok_msgs (d : JsObj) (now : Nat) (m : Monitor) :
    (updateTokenStatus d now m).statistics.messagesRelayed
      = m.statistics.messagesRelayed := by
  simp only [updateTokenStatus]
  repeat' split
  all_goals rfl

theorem updTok_eff (d : JsObj) (now : Nat) (m : Monitor) :
    (updateTokenStatus d now m).statistics.networkEfficiency
      = m.statistics.networkEfficiency := by
  simp only [updateTokenStatus]
  repeat' split
  all_goals rfl

theorem updTok_nodesOk (d : JsObj) (now : Nat) (m : Monitor)
    (hD : nodesOk m) : nodesOk (updateTokenStatus d now m) := by
  have hsub : ∀ p, p ∈ (updateTokenStatus d now m).nodes →
      p ∈ m.nodes
        ∨ ∃ s node, aget m.nodes s = some node
            ∧ p = (s, ("lastTokenHold", vInt now)
                :: ("tokenHolds", vInt (valNumOrZero (jget node "tokenHolds") + 1))
                :: node) := by
    intro p
    unfold updateTokenStatus
    cases hc : jget d "currentHolder" with
    | none =>
        simp only [hc]
        exact fun hp => Or.inl hp
    | some v =>
        cases v with
        | vStr s =>
            simp only [hc]
            by_cases hs : s = ""
            · subst hs
              simp only [ne_eq, not_true_eq_false, if_false]
              exact fun hp => Or.inl hp
            · rw [if_pos hs]
              cases hnode : aget m.nodes s with
              | none =>
                  simp only [hnode]
                  exact fun hp => Or.inl hp
              | some node =>
                  simp only [hnode]
                  intro hp
                  rcases mem_mapSet hp with h | h
                  · exact Or.inr ⟨s, node, hnode, h⟩
                  · exact Or.inl h
        | vNull => simp only [hc]; exact fun hp => Or.inl hp
        | vBool b => simp only [hc]; exact fun hp => Or.inl hp
        | vInt n => simp only [hc]; exact fun hp => Or.inl hp
        | vArr l => simp only [hc]; exact fun hp => Or.inl hp
  intro p hp
  rcases hsub p hp with h | ⟨s, node, hnode, rfl⟩
  · exact hD p h
  · apply payloadCountersOk_cons_other (by decide) (by decide) (by decide)
    apply payloadCountersOk_cons_other (by decide) (by decide) (by decide)
    exact hD _ (aget_mem hnode)

theorem updTopo_stats (td : JsObj) (m : Monitor) :
    (updateTopology td m).statistics = m.statistics := by
  unfold updateTopology
  repeat' split
  all_goals first
    | rfl
    | exact topoFrom_stats _ _ _

theorem updTopo_nodesOk (td : JsObj) (m : Monitor) (hD : nodesOk m) :
    nodesOk (updateTopology td m) := by
  have hsub : ∀ p, p ∈ (updateTopology td m).nodes →
      p ∈ m.nodes
        ∨ ∃ s node, aget m.nodes s = some node
            ∧ p = (s, ("neighbors", jsOrVal (jget td "neighbors") (vArr []))
                :: node) := by
    intro p
    unfold updateTopology
    cases hc : jget td "nodeId" with
    | none =>
        simp only [hc]
        exact fun hp => Or.inl hp
    | some v =>
        cases v with
        | vStr s =>
            simp only [hc]
            by_cases hs : s = ""
            · subst hs
              simp only [ne_eq, not_true_eq_false, if_false]
              exact fun hp => Or.inl hp
            · rw [if_pos hs]
              cases hnode : aget m.nodes s with
              | none =>
                  simp only [hnode]
                  exact fun hp => Or.inl hp
              | some node =>
                  simp only [hnode]
                  intro hp
                  rw [topoFrom_nodes] at hp
                  rcases mem_mapSet hp with h | h
                  · exact Or.inr ⟨s, node, hnode, h⟩
                  · exact Or.inl h
        | vNull => simp only [hc]; exact fun hp => Or.inl hp
        | vBool b => simp only [hc]; exact fun hp => Or.inl hp
        | vInt n => simp only [hc]; exact fun hp => Or.inl hp
        | vArr l => simp only [hc]; exact fun hp => Or.inl hp
  intro p hp
  rcases hsub p hp with h | ⟨s, node, hnode, rfl⟩
  · exact hD p h
  · apply payloadCountersOk_cons_other (by decide) (by decide) (by decide)
    exact hD _ (aget_mem hnode)

theorem updDfs_stats (d : JsObj) (now : Nat) (m : Monitor) :
    (updateDfsState d now m).statistics = m.statistics := by
  unfold updateDfsState
  repeat' split
  all_goals rfl

theorem effInv_of_stats_eq {m m' : Monitor} (hst : m'.statistics = m.statistics)
    (hD' : nodesOk m') (h : effInv m) : effInv m' := by
  obtain ⟨hA, h0, h100, hC, _⟩ := h
  refine ⟨?_, ?_, ?_, ?_, hD'⟩ <;> rw [hst]
  · exact hA
  · exact h0
  · exact h100
  · exact hC

theorem effInv_step (op : MOp) (m : Monitor) (hop : goodOp op)
    (h : effInv m) : effInv (step op m) := by
  obtain ⟨hA, hB0, hB100, hC, hD⟩ := h
  cases op with
  | opNodeInfo nid info now =>
      show effInv (updateNode nid info now m)
      have hok : payloadCountersOk
          (("lastUpdated", vInt now) :: (info ++ ((aget m.nodes nid).getD [])))
          = true := by
        apply payloadCountersOk_cons_other (by decide) (by decide) (by decide)
        exact payloadCountersOk_append hop (nodesOk_old m nid hD)
      have hD2 : nodesOk ((updateTopologyFromNode nid
          (("lastUpdated", vInt now) :: (info ++ ((aget m.nodes nid).getD [])))
          ({ m with nodes := mapSet m.nodes nid
                      (("lastUpdated", vInt now)
                        :: (info ++ ((aget m.nodes nid).getD []))) })).1) := by
        intro p hp
        rw [topoFrom_nodes] at hp
        exact nodesOk_mapSet hD hok p hp
      simp only [updateNode]
      split
      · exact effInv_of_stats_eq (topoFrom_stats _ _ _) hD2
          ⟨hA, hB0, hB100, hC, fun p hp => nodesOk_mapSet hD hok p hp⟩
      · exact effInv_updateStatistics none now _ hD2 (fun s hs => by cases hs)
  | opTokenStatus d now =>
      show effInv (updateTokenStatus d now m)
      refine ⟨?_, ?_, ?_, ?_, updTok_nodesOk d now m hD⟩
      · rw [updTok_msgs]
        exact hA
      · rw [updTok_eff]
        exact hB0
      · rw [updTok_eff]
        exact hB100
      · rw [updTok_msgs, updTok_eff, tc_update]
        intro h0
        by_cases hmv : movedCond (curHolder m) (jget d "currentHolder") = true
        · rw [if_pos hmv] at h0
          exfalso
          omega
        · rw [if_neg hmv] at h0
          simp only [Nat.add_zero] at h0
          exact hC h0
  | opTopology td =>
      show effInv (updateTopology td m)
      refine ⟨?_, ?_, ?_, ?_, updTopo_nodesOk td m hD⟩ <;>
        rw [updTopo_stats]
      · exact hA
      · exact hB0
      · exact hB100
      · exact hC
  | opStatistics sd now =>
      show effInv (updateStatistics sd now m)
      apply effInv_updateStatistics sd now m hD
      intro s hs
      rw [hs] at hop
      exact hop
  | opDfs d now =>
      show effInv (updateDfsState d now m)
      have hn : nodesOk (updateDfsState d now m) := by
        intro p hp
        rw [updDfs_nodes] at hp
        exact hD p hp
      refine ⟨?_, ?_, ?_, ?_, hn⟩ <;> rw [updDfs_stats]
      · exact hA
      · exact hB0
      · exact hB100
      · exact hC
  | opRemove nid now =>
      show effInv (removeNode nid now m)
      unfold removeNode
      apply effInv_updateStatistics none now _ _ (fun s hs => by cases hs)
      intro p hp
      have hp' : p ∈ m.nodes := List.mem_filter.1 hp |>.1
      exact hD p hp'
  | opReset now =>
      show effInv (reset now m)
      unfold reset
      apply effInv_calcG
      intro p hp
      exact absurd hp (List.not_mem_nil p)

/-- C6 amended: along any trace whose node_info and statistics_update
payloads carry well-formed (absent, null or non-negative integer) counter
fields, networkEfficiency stays within the interval from 0 to 100 and is 0
whenever the stored messagesRelayed plus tokenCirculations is 0. -/
theorem C6_amended_efficiency (ops : List MOp)
    (hgood : ∀ op ∈ ops, goodOp op) :
    0 ≤ (runTrace ops).statistics.networkEfficiency
      ∧ (runTrace ops).statistics.networkEfficiency ≤ 100
      ∧ ((runTrace ops).statistics.messagesRelayed
            + ((runTrace ops).statistics.tokenCirculations : Int) = 0
          → (runTrace ops).statistics.networkEfficiency = 0) := by
  suffices h : effInv (runTrace ops) by
    obtain ⟨_, h0, h100, hz, _⟩ := h
    exact ⟨h0, h100, hz⟩
  have hinit : effInv initMonitor := by
    refine ⟨by simp [initMonitor, statsInit], by simp [initMonitor, statsInit],
      by simp [initMonitor, statsInit], fun _ => by simp [initMonitor, statsInit],
      fun p hp => absurd hp (List.not_mem_nil p)⟩
  have hfold : ∀ (l : List MOp) (m : Monitor), (∀ op ∈ l, goodOp op) →
      effInv m → effInv (l.foldl (fun m op => step op m) m) := by
    intro l
    induction l with
    | nil => exact fun m _ hm => hm
    | cons op rest ih =>
        intro m hg hm
        exact ih _ (fun o ho => hg o (List.mem_cons_of_mem _ ho))
          (effInv_step op m (hg op (List.mem_cons_self _ _)) hm)
  exact hfold ops initMonitor hgood hinit

/-- C6 amended witness: a small benign trace. -/
theorem C6_amended_efficiency_witness :
    0 ≤ (runTrace
        [MOp.opNodeInfo "A" [("nodeId", vStr "A"), ("messagesRelayed", vInt 3)] 1,
         MOp.opTokenStatus [("currentHolder", vStr "A")] 2]).statistics.networkEfficiency
      ∧ (runTrace
        [MOp.opNodeInfo "A" [("nodeId", vStr "A"), ("messagesRelayed", vInt 3)] 1,
         MOp.opTokenStatus [("currentHolder", vStr "A")] 2]).statistics.networkEfficiency
          ≤ 100
      ∧ ((runTrace
        [MOp.opNodeInfo "A" [("nodeId", vStr "A"), ("messagesRelayed", vInt 3)] 1,
         MOp.opTokenStatus [("currentHolder", vStr "A")] 2]).statistics.messagesRelayed
            + ((runTrace
        [MOp.opNodeInfo "A" [("nodeId", vStr "A"), ("messagesRelayed", vInt 3)] 1,
         MOp.opTokenStatus [("currentHolder", vStr "A")] 2]).statistics.tokenCirculations
              : Int) = 0
          → (runTrace
        [MOp.opNodeInfo "A" [("nodeId", vStr "A"), ("messagesRelayed", vInt 3)] 1,
         MOp.opTokenStatus [("currentHolder", vStr "A")] 2]).statistics.networkEfficiency
              = 0) :=
  C6_amended_efficiency
    [MOp.opNodeInfo "A" [("nodeId", vStr "A"), ("messagesRelayed", vInt 3)] 1,
     MOp.opTokenStatus [("currentHolder", vStr "A")] 2]
    (by
      intro op hop
      rcases List.mem_cons.1 hop with h | h
      · rw [h]
        show payloadCountersOk _ = true
        decide
      · rcases List.mem_cons.1 h with h | h
        · rw [h]
          trivial
        · exact absurd h (List.not_mem_nil op))

/-- C9 witness: the concrete two-report trace produces the edge from node_B
to node_A, and both endpoints are indeed in the node map. -/
theorem C9_edges_endpoints_witness :
    mapHas (runTrace
        [MOp.opNodeInfo "node_A"
          [("nodeId", vStr "node_A"), ("neighbors", vArr ["node_B"])] 1,
         MOp.opNodeInfo "node_B"
          [("nodeId", vStr "node_B"), ("neighbors", vArr ["node_A"])] 2]).nodes
        "node_B" = true
      ∧ mapHas (runTrace
        [MOp.opNodeInfo "node_A"
          [("nodeId", vStr "node_A"), ("neighbors", vArr ["node_B"])] 1,
         MOp.opNodeInfo "node_B"
          [("nodeId", vStr "node_B"), ("neighbors", vArr ["node_A"])] 2]).nodes
        "node_A" = true :=
  C9_edges_endpoints
    [MOp.opNodeInfo "node_A"
      [("nodeId", vStr "node_A"), ("neighbors", vArr ["node_B"])] 1,
     MOp.opNodeInfo "node_B"
      [("nodeId", vStr "node_B"), ("neighbors", vArr ["node_A"])] 2]
    (Edge.mk "node_B-node_A" "node_B" "node_A" "neighbor") (by decide)

end Mediator
